import Mathlib

/-!
Verification of the Relay operator type-inference and strategy-dispatch core:
the type relations of `src/relay/op/type_relations.cc` (IdentityRel, EqualCheck,
EqualConstInt, ConcreteBroadcast, BroadcastRel, BroadcastCompRel) and the
strategy registry of `src/relay/ir/op_attr_types.cc` (OpSpecialization,
OpStrategy), shallowly embedded as executable Lean definitions.
-/

namespace Relay

/-- Index expressions over shape dimensions: concrete integer literals
(`IntImm`), symbolic variables (`Var`), the `Any` run-time wildcard
dimension, and arithmetic (`Add`, `Sub`). `Any` is the singleton wildcard
node, so identity of two `Any` dimensions is structural equality. -/
inductive IndexExpr where
  | IntImm : Int → IndexExpr
  | Var : String → IndexExpr
  | Any : IndexExpr
  | Add : IndexExpr → IndexExpr → IndexExpr
  | Sub : IndexExpr → IndexExpr → IndexExpr
deriving DecidableEq, Repr

/-- The `as_const_int` extractor: `some v` exactly when the expression is a
concrete integer literal. -/
def as_const_int : IndexExpr → Option Int
  | .IntImm v => some v
  | _ => none

/-- Subtraction on index expressions, with the constant folding that the
expression-building `operator-` performs when both operands are literals. -/
def sub (a b : IndexExpr) : IndexExpr :=
  match a, b with
  | .IntImm x, .IntImm y => .IntImm (x - y)
  | _, _ => .Sub a b

/-- Atoms (non-literal leaves) occurring in an index expression. -/
def atoms : IndexExpr → List IndexExpr
  | .IntImm _ => []
  | .Add a b => atoms a ++ atoms b
  | .Sub a b => atoms a ++ atoms b
  | e => [e]

/-- Coefficient of the atom `x` in the linear reading of `e`. -/
def coeffOf : IndexExpr → IndexExpr → Int
  | .IntImm _, _ => 0
  | .Add a b, x => coeffOf a x + coeffOf b x
  | .Sub a b, x => coeffOf a x - coeffOf b x
  | .Var v, x => if IndexExpr.Var v = x then 1 else 0
  | .Any, x => if IndexExpr.Any = x then 1 else 0

/-- Constant part of the linear reading of `e`. -/
def constPart : IndexExpr → Int
  | .IntImm v => v
  | .Add a b => constPart a + constPart b
  | .Sub a b => constPart a - constPart b
  | _ => 0

/-- Modelled from the spec: `CanonicalSimplify` from the symbolic-arithmetic
subsystem (`tvm::ir::CanonicalSimplify`), which is not part of this excerpt
and is consumed by `EqualCheck` as an opaque decision procedure that
canonicalises an index expression. The model normalises the linear reading of
the expression: when every atom's coefficient cancels, the expression is
provably a constant and the literal constant part is returned; otherwise the
expression is left as it stands. -/
def CanonicalSimplify (e : IndexExpr) : IndexExpr :=
  if (atoms e).all (fun a => decide (coeffOf e a = 0)) then
    .IntImm (constPart e)
  else e

/-- Second phase of `EqualCheck`: canonically simplify the difference and
test it against the literal zero; an undecided difference counts as not
equal. -/
def simplifiedIsZero (diff : IndexExpr) : Bool :=
  match as_const_int (CanonicalSimplify diff) with
  | some v => decide (v = 0)
  | none => false

/-- EqualCheck from `type_relations.cc`: try the structural difference as a
constant first; if that is not decidable, run the difference through the
symbolic simplifier and re-check against zero. -/
def EqualCheck (lhs rhs : IndexExpr) : Bool :=
  let diff := sub lhs rhs
  match as_const_int diff with
  | some v => decide (v = 0)
  | none => simplifiedIsZero diff

/-- EqualConstInt from `type_relations.cc`: true iff the expression is a
concrete integer literal equal to `value`. -/
def EqualConstInt (lhs : IndexExpr) (value : Int) : Bool :=
  match as_const_int lhs with
  | some v => decide (v = value)
  | none => false

/-- Element dtypes of tensors, as code plus bit width; `BoolType` is the
`tvm::Bool()` dtype, an unsigned 1-bit integer. -/
inductive DataType where
  | IntT : Nat → DataType
  | UIntT : Nat → DataType
  | FloatT : Nat → DataType
deriving DecidableEq, Repr

/-- The dtype produced by `tvm::Bool()`. -/
def BoolType : DataType := .UIntT 1

/-- TensorType: an element dtype together with an ordered sequence of
dimension expressions in natural left-to-right order. -/
structure TensorType where
  shape : List IndexExpr
  dtype : DataType
deriving DecidableEq, Repr

/-- The fatal (non-retryable) failure channel: failed `CHECK` assertions and
the `RELAY_ERROR(...).Raise()` of `ConcreteBroadcast`, each carrying the
data rendered into the diagnostic message. -/
inductive Fatal where
  | checkArity : Nat → Fatal
  | checkDtype : DataType → DataType → Fatal
  | incompatibleBroadcast : TensorType → TensorType → Fatal
deriving DecidableEq, Repr

deriving instance DecidableEq for Except

/-- Resolution of one aligned dimension pair inside the trailing loop of
`ConcreteBroadcast`: a resolved output dimension, a resolved output dimension
accompanied by the non-fatal `LOG(WARNING)` of the `Any` branches, or the
fatal incompatibility error. -/
inductive DimResult where
  | ok : IndexExpr → DimResult
  | okWarn : IndexExpr → DimResult
  | err : DimResult
deriving DecidableEq, Repr

/-- The branch ladder applied to one aligned pair `(s1, s2)` in
`ConcreteBroadcast`, in source order: provably equal, `s1` literal one,
`s2` literal one, `s1` the `Any` wildcard, `s2` the `Any` wildcard,
incompatible. -/
def broadcastDim (s1 s2 : IndexExpr) : DimResult :=
  if EqualCheck s1 s2 then .ok s1
  else if EqualConstInt s1 1 then .ok s2
  else if EqualConstInt s2 1 then .ok s1
  else if s1 = .Any then .okWarn s2
  else if s2 = .Any then .okWarn s1
  else .err

/-- The trailing right-to-left loop of `ConcreteBroadcast`, acting on the two
reversed shapes: it resolves `min(ndim1, ndim2)` aligned pairs, accumulating
output dimensions in back-to-front order together with the number of
warnings emitted, and fails at the first incompatible pair. -/
def bcastDims : List IndexExpr → List IndexExpr → Option (List IndexExpr × Nat)
  | s1 :: r1, s2 :: r2 =>
    match broadcastDim s1 s2 with
    | .ok d => (bcastDims r1 r2).map (fun p => (d :: p.1, p.2))
    | .okWarn d => (bcastDims r1 r2).map (fun p => (d :: p.1, p.2 + 1))
    | .err => none
  | _, _ => some ([], 0)

/-- ConcreteBroadcast from `type_relations.cc`. The aligned trailing
dimensions are resolved back-to-front by `bcastDims`; the remaining leading
dimensions of the strictly-longer shape pass through unchanged; the
accumulated back-to-front dimensions are reversed once into natural order.
On success the value also carries the number of `Any` warnings logged; on an
incompatible pair the fatal error carries both offending tensor types, as
the `RELAY_ERROR` message does. -/
def ConcreteBroadcast (t1 t2 : TensorType) (output_dtype : DataType) :
    Except Fatal (TensorType × Nat) :=
  match bcastDims t1.shape.reverse t2.shape.reverse with
  | none => .error (.incompatibleBroadcast t1 t2)
  | some (ds, w) =>
    let rshape := if t2.shape.length < t1.shape.length then t1.shape else t2.shape
    let lead := rshape.reverse.drop (min t1.shape.length t2.shape.length)
    .ok (⟨(ds ++ lead).reverse, output_dtype⟩, w)

/-- Relay types as seen by the relations: the `TensorType` variant, plus a
non-tensor variant standing for every other member of the `Type` union
(incomplete types, function types, ...), which `ToTensorType` rejects. -/
inductive RType where
  | TensorTy : TensorType → RType
  | IncompleteTy : Nat → RType
deriving DecidableEq, Repr

instance : Inhabited RType := ⟨.IncompleteTy 0⟩

/-- ToTensorType from `type_relations.cc`: the checked downcast, `some`
exactly on the `TensorType` variant (the source returns a null reference,
tested for definedness, on every other variant). -/
def ToTensorType : RType → Option TensorType
  | .TensorTy t => some t
  | .IncompleteTy _ => none

/-- Attribute records are passed through and never interpreted here. -/
abbrev Attrs := Unit

/-- The reporter is a unification sink; a relation invocation is modelled by
the ordered list of `Assign(slot, value)` calls it makes. -/
abbrev Assignments := List (RType × RType)

/-- IdentityRel from `type_relations.cc`: assign `types[i] := types[0]` for
every `i` in `[1, len(types))` and return `true`. The result is the returned
boolean paired with the reporter assignments in call order. -/
def IdentityRel (types : List RType) (num_inputs : Int) (attrs : Attrs) :
    Bool × Assignments :=
  (true,
    (List.range types.length).drop 1 |>.map
      (fun i => (types.getD i default, types.getD 0 default)))

/-- BroadcastRel from `type_relations.cc`: check the arity is exactly 3
(fatal on violation), return `false` with no assignment if either input is
not a tensor type, check the dtypes are equal (fatal on violation), then
assign the output slot the broadcast of the two inputs at the shared input
dtype and return `true`. -/
def BroadcastRel (types : List RType) (num_inputs : Int) (attrs : Attrs) :
    Except Fatal (Bool × Assignments) :=
  if types.length = 3 then
    match ToTensorType (types.getD 0 default) with
    | some t0 =>
      match ToTensorType (types.getD 1 default) with
      | some t1 =>
        if t0.dtype = t1.dtype then
          match ConcreteBroadcast t0 t1 t0.dtype with
          | .ok (out, _) => .ok (true, [(types.getD 2 default, .TensorTy out)])
          | .error e => .error e
        else .error (.checkDtype t0.dtype t1.dtype)
      | none => .ok (false, [])
    | none => .ok (false, [])
  else .error (.checkArity types.length)

/-- BroadcastCompRel from `type_relations.cc`: identical to `BroadcastRel`
except that the output tensor type is built at the boolean dtype. -/
def BroadcastCompRel (types : List RType) (num_inputs : Int) (attrs : Attrs) :
    Except Fatal (Bool × Assignments) :=
  if types.length = 3 then
    match ToTensorType (types.getD 0 default) with
    | some t0 =>
      match ToTensorType (types.getD 1 default) with
      | some t1 =>
        if t0.dtype = t1.dtype then
          match ConcreteBroadcast t0 t1 BoolType with
          | .ok (out, _) => .ok (true, [(types.getD 2 default, .TensorTy out)])
          | .error e => .error e
        else .error (.checkDtype t0.dtype t1.dtype)
      | none => .ok (false, [])
    | none => .ok (false, [])
  else .error (.checkArity types.length)

/-- Reference rule, transcribed from the specification's words for use in the
refinement claims: one aligned pair of concrete dimensions resolves to the
first when both are equal, to the other one when either is the literal one,
and is incompatible otherwise. -/
def npBroadcastDim (a b : Int) : Option Int :=
  if a = b then some a
  else if a = 1 then some b
  else if b = 1 then some a
  else none

/-- Reference broadcasting over two reversed (trailing-first) concrete
shapes, transcribed from the specification: aligned pairs are resolved by
`npBroadcastDim` and the leftover leading dimensions of the longer shape
pass through unchanged. -/
def npBroadcastRev : List Int → List Int → Option (List Int)
  | [], ys => some ys
  | xs, [] => some xs
  | x :: xs, y :: ys =>
    (npBroadcastDim x y).bind fun d => (npBroadcastRev xs ys).map (d :: ·)

/-- Reference NumPy-style broadcasting of two concrete shapes given in
natural left-to-right order, transcribed from the specification. -/
def npBroadcast (s1 s2 : List Int) : Option (List Int) :=
  (npBroadcastRev s1.reverse s2.reverse).map List.reverse

/-- Specialization conditions are opaque values compared for equality; the
generic condition is one of them. -/
abbrev SpecializedCondition := Nat

/-- OpImplementNode: a compute function and a schedule function (opaque
handles here) together with an integer priority level. -/
structure OpImplement where
  fcompute : Nat
  fschedule : Nat
  plevel : Int
deriving DecidableEq, Repr

/-- OpSpecializationNode: a guarded group of implementations together with
the condition under which it is active. -/
structure OpSpecialization where
  condition : SpecializedCondition
  implements : List OpImplement
deriving DecidableEq, Repr

/-- OpStrategyNode: the per-operator ordered list of specializations. A
freshly constructed strategy has no specializations. -/
structure OpStrategy where
  specializations : List OpSpecialization
deriving DecidableEq, Repr

/-- OpSpecialization::AddImplement from `op_attr_types.cc`: append a newly
built implementation to this specialization's list. -/
def OpSpecialization.AddImplement (sp : OpSpecialization)
    (fcompute fschedule : Nat) (plevel : Int) : OpSpecialization :=
  { sp with implements := sp.implements ++ [⟨fcompute, fschedule, plevel⟩] }

/-- The in-place mutation performed by `OpStrategy::AddImplement` when its
linear scan finds a specialization whose condition matches: the first such
specialization receives the new implementation, the rest are untouched. -/
def addToFirstMatch : List OpSpecialization → SpecializedCondition →
    Nat → Nat → Int → List OpSpecialization
  | [], _, _, _, _ => []
  | e :: rest, c, fc, fs, pl =>
    if e.condition = c then e.AddImplement fc fs pl :: rest
    else e :: addToFirstMatch rest c fc fs pl

/-- OpStrategy::AddImplement from `op_attr_types.cc`. The ambient
`SpecializedCondition::Current()` is threaded as the explicit `curr_cond`
parameter. The strategy's specializations are scanned for one whose
condition equals the current condition; if found, the implementation is
appended to it, otherwise a new specialization bound to the current
condition is created, receives the implementation, and is appended. -/
def OpStrategy.AddImplement (st : OpStrategy) (curr_cond : SpecializedCondition)
    (fcompute fschedule : Nat) (plevel : Int) : OpStrategy :=
  if st.specializations.any (fun e => decide (e.condition = curr_cond)) then
    ⟨addToFirstMatch st.specializations curr_cond fcompute fschedule plevel⟩
  else
    ⟨st.specializations ++ [⟨curr_cond, [⟨fcompute, fschedule, plevel⟩]⟩]⟩

/-- Proof intermediate: the aligned portion of the reference broadcast, which
consumes exactly `min` pairs of the two reversed shapes and drops the
leftover of the longer one. -/
def npAlign : List Int → List Int → Option (List Int)
  | x :: xs, y :: ys =>
    (npBroadcastDim x y).bind fun d => (npAlign xs ys).map (d :: ·)
  | _, _ => some []

/-- A sequence of `OpStrategy.AddImplement` calls, each carrying the
condition current at its call site, applied in order. -/
def applyAddImplements (st : OpStrategy)
    (calls : List (SpecializedCondition × Nat × Nat × Int)) : OpStrategy :=
  calls.foldl (fun s p => s.AddImplement p.1 p.2.1 p.2.2.1 p.2.2.2) st

lemma coeffOf_sub (a b x : IndexExpr) :
    coeffOf (.Sub a b) x = coeffOf a x - coeffOf b x := rfl

lemma atoms_sub (a b : IndexExpr) : atoms (.Sub a b) = atoms a ++ atoms b := rfl

lemma constPart_sub (a b : IndexExpr) :
    constPart (.Sub a b) = constPart a - constPart b := rfl

/-- The canonical simplification of `x - x` is the literal zero. -/
lemma canonicalSimplify_sub_self (x : IndexExpr) :
    CanonicalSimplify (.Sub x x) = .IntImm 0 := by
  unfold CanonicalSimplify
  rw [if_pos]
  · rw [constPart_sub, sub_self]
  · simp [atoms_sub, coeffOf_sub]

/-- `EqualCheck x x` holds for every index expression. -/
lemma equalCheck_self (x : IndexExpr) : EqualCheck x x = true := by
  unfold EqualCheck
  cases x with
  | IntImm v => simp [sub, as_const_int]
  | Var v => simp [sub, as_const_int, simplifiedIsZero, canonicalSimplify_sub_self]
  | Any => simp [sub, as_const_int, simplifiedIsZero, canonicalSimplify_sub_self]
  | Add a b => simp [sub, as_const_int, simplifiedIsZero, canonicalSimplify_sub_self]
  | Sub a b => simp [sub, as_const_int, simplifiedIsZero, canonicalSimplify_sub_self]

/-- The second stage of `EqualCheck` (simplify the difference, compare with
zero) is insensitive to the order of the two operands. -/
lemma equalCheck_stage2_comm (a b : IndexExpr) :
    simplifiedIsZero (.Sub a b) = simplifiedIsZero (.Sub b a) := by
  unfold simplifiedIsZero
  have hpred : (fun x => decide (coeffOf (.Sub a b) x = 0)) =
      (fun x => decide (coeffOf (.Sub b a) x = 0)) := by
    funext x
    simp only [coeffOf_sub, decide_eq_decide, sub_eq_zero]
    exact eq_comm
  have hcond : ((atoms (.Sub a b)).all fun x => decide (coeffOf (.Sub a b) x = 0)) =
      ((atoms (.Sub b a)).all fun x => decide (coeffOf (.Sub b a) x = 0)) := by
    rw [hpred, atoms_sub, atoms_sub, List.all_append, List.all_append,
      Bool.and_comm]
  unfold CanonicalSimplify
  by_cases hc : ((atoms (.Sub a b)).all fun x => decide (coeffOf (.Sub a b) x = 0)) = true
  · rw [if_pos hc, if_pos (hcond ▸ hc)]
    simp only [as_const_int, constPart_sub, decide_eq_decide, sub_eq_zero]
    exact eq_comm
  · rw [if_neg hc, if_neg (fun h => hc (hcond ▸ h))]
    simp [as_const_int]

lemma as_const_int_sub (a b : IndexExpr) : as_const_int (.Sub a b) = none := rfl

/-- `EqualCheck` is symmetric. -/
lemma equalCheck_comm (a b : IndexExpr) : EqualCheck a b = EqualCheck b a := by
  cases a <;> cases b <;>
    simp only [EqualCheck, sub, as_const_int_sub] <;>
    first
      | rfl
      | (simp only [as_const_int, decide_eq_decide, sub_eq_zero]; exact eq_comm)
      | exact equalCheck_stage2_comm _ _

lemma broadcastDim_intImm (a b : Int) :
    broadcastDim (.IntImm a) (.IntImm b) =
      match npBroadcastDim a b with
      | some d => .ok (.IntImm d)
      | none => .err := by
  have hec : EqualCheck (.IntImm a) (.IntImm b) = decide (a = b) := by
    simp [EqualCheck, sub, as_const_int, sub_eq_zero]
  have he1 : ∀ x : Int, EqualConstInt (.IntImm x) 1 = decide (x = 1) := fun x => rfl
  unfold broadcastDim npBroadcastDim
  rw [hec, he1, he1]
  by_cases hab : a = b
  · simp [hab]
  · by_cases ha : a = 1
    · by_cases h1b : (1 : Int) = b <;> simp [hab, ha, h1b]
    · by_cases hb : b = 1 <;> simp [hab, ha, hb]

lemma bcastDims_intImm (r1 r2 : List Int) :
    bcastDims (r1.map .IntImm) (r2.map .IntImm) =
      (npAlign r1 r2).map (fun ds => (ds.map .IntImm, 0)) := by
  induction r1 generalizing r2 with
  | nil => cases r2 <;> rfl
  | cons x xs ih =>
    cases r2 with
    | nil => rfl
    | cons y ys =>
      simp only [List.map_cons, bcastDims, npAlign, broadcastDim_intImm]
      cases hd : npBroadcastDim x y with
      | none => rfl
      | some d =>
        simp only [Option.bind_eq_bind, Option.some_bind]
        rw [ih ys]
        cases npAlign xs ys <;> rfl

lemma npBroadcastRev_eq_align (r1 r2 : List Int) :
    npBroadcastRev r1 r2 =
      (npAlign r1 r2).map
        (fun ds => ds ++
          (if r2.length < r1.length then r1 else r2).drop
            (min r1.length r2.length)) := by
  induction r1 generalizing r2 with
  | nil =>
    cases r2 with
    | nil => rfl
    | cons y ys => simp [npBroadcastRev, npAlign]
  | cons x xs ih =>
    cases r2 with
    | nil => simp [npBroadcastRev, npAlign]
    | cons y ys =>
      simp only [npBroadcastRev, npAlign]
      cases hd : npBroadcastDim x y with
      | none => rfl
      | some d =>
        simp only [Option.bind_eq_bind, Option.some_bind]
        rw [ih ys]
        cases npAlign xs ys with
        | none => rfl
        | some ds =>
          have hmin : min (xs.length + 1) (ys.length + 1) =
              min xs.length ys.length + 1 := Nat.succ_min_succ _ _
          simp only [Option.map_some, List.length_cons, hmin, Option.some.injEq,
            List.cons_append, List.cons.injEq, true_and]
          by_cases hlen : ys.length < xs.length <;>
            simp [hlen, List.drop_succ_cons]

/-- On two fully concrete shapes, `ConcreteBroadcast` computes exactly the
reference NumPy broadcast: the same output shape with no warnings on
success, and the fatal error carrying both offending tensor types exactly
when the reference deems the shapes incompatible. -/
lemma concreteBroadcast_np (s1 s2 : List Int) (d1 d2 od : DataType) :
    ConcreteBroadcast ⟨s1.map .IntImm, d1⟩ ⟨s2.map .IntImm, d2⟩ od =
      match npBroadcast s1 s2 with
      | some o => .ok (⟨o.map .IntImm, od⟩, 0)
      | none =>
        .error (.incompatibleBroadcast ⟨s1.map .IntImm, d1⟩ ⟨s2.map .IntImm, d2⟩) := by
  unfold ConcreteBroadcast npBroadcast
  simp only [← List.map_reverse, bcastDims_intImm, npBroadcastRev_eq_align]
  cases hal : npAlign s1.reverse s2.reverse with
  | none => rfl
  | some ds =>
    by_cases hlen : s2.length < s1.length <;>
      simp [hlen, ← List.map_reverse, ← List.map_drop, ← List.map_append]

/-- The shape computed by `ConcreteBroadcast` and the number of warnings do
not depend on the requested output dtype, which is only stamped onto the
result: from one successful run every other output dtype choice succeeds
with the same shape. -/
lemma concreteBroadcast_ok_shape (t1 t2 : TensorType) (d d2 : DataType)
    (sh : List IndexExpr) (e : DataType) (w : Nat)
    (h : ConcreteBroadcast t1 t2 d = .ok (⟨sh, e⟩, w)) :
    e = d ∧ ConcreteBroadcast t1 t2 d2 = .ok (⟨sh, d2⟩, w) := by
  unfold ConcreteBroadcast at h ⊢
  cases hb : bcastDims t1.shape.reverse t2.shape.reverse with
  | none => rw [hb] at h; exact absurd h (by simp)
  | some p =>
    rw [hb] at h
    obtain ⟨ds, w0⟩ := p
    simp only [Except.ok.injEq, Prod.mk.injEq, TensorType.mk.injEq] at h ⊢
    exact ⟨h.1.2.symm, ⟨h.1.1, trivial⟩, h.2⟩

lemma addToFirstMatch_conditions (l : List OpSpecialization)
    (c : SpecializedCondition) (fc fs : Nat) (pl : Int) :
    (addToFirstMatch l c fc fs pl).map OpSpecialization.condition =
      l.map OpSpecialization.condition := by
  induction l with
  | nil => rfl
  | cons e rest ih =>
    by_cases h : e.condition = c <;>
      simp [addToFirstMatch, h, ih, OpSpecialization.AddImplement]

/-- One `AddImplement` call preserves pairwise-distinctness of the
specialization conditions of a strategy. -/
lemma addImplement_conditions_nodup (st : OpStrategy)
    (c : SpecializedCondition) (fc fs : Nat) (pl : Int)
    (h : (st.specializations.map OpSpecialization.condition).Nodup) :
    (((st.AddImplement c fc fs pl).specializations).map
      OpSpecialization.condition).Nodup := by
  unfold OpStrategy.AddImplement
  by_cases hany :
      st.specializations.any (fun e => decide (e.condition = c)) = true
  · rw [if_pos hany]
    simpa [addToFirstMatch_conditions] using h
  · rw [if_neg hany]
    have hnotin : c ∉ st.specializations.map OpSpecialization.condition := by
      intro hmem
      rw [List.mem_map] at hmem
      obtain ⟨x, hx, hc⟩ := hmem
      refine hany ?_
      rw [List.any_eq_true]
      exact ⟨x, hx, by simp [hc]⟩
    simp [List.nodup_append, h, hnotin]

lemma applyAddImplements_conditions_nodup (calls : List (SpecializedCondition × Nat × Nat × Int))
    (st : OpStrategy)
    (h : (st.specializations.map OpSpecialization.condition).Nodup) :
    (((applyAddImplements st calls).specializations).map
      OpSpecialization.condition).Nodup := by
  induction calls generalizing st with
  | nil => exact h
  | cons p rest ih =>
    exact ih _ (addImplement_conditions_nodup st p.1 p.2.1 p.2.2.1 p.2.2.2 h)

/-- C1: on concrete (constant, non-Any) shapes, `ConcreteBroadcast` aligns
the shapes at the trailing dimension and resolves the `min(rank1, rank2)`
aligned pairs by the equal / s1-is-1 / s2-is-1 ladder, passes the leading
dimensions of the higher-rank input through unchanged, and returns the
shape in natural left-to-right order — exactly the reference NumPy
broadcast `npBroadcast`; in particular `(8, 1, 6, 1)` with `(7, 1, 5)`
gives `(8, 7, 6, 5)`, `(5, 4)` with `(4,)` gives `(5, 4)`, and `(3,)` with
`()` gives `(3,)`. -/
theorem concreteBroadcast_concrete_shapes :
    (∀ (s1 s2 o : List Int) (d1 d2 od : DataType),
        npBroadcast s1 s2 = some o →
        ConcreteBroadcast ⟨s1.map .IntImm, d1⟩ ⟨s2.map .IntImm, d2⟩ od =
          .ok (⟨o.map .IntImm, od⟩, 0)) ∧
    ConcreteBroadcast
        ⟨[.IntImm 8, .IntImm 1, .IntImm 6, .IntImm 1], .FloatT 32⟩
        ⟨[.IntImm 7, .IntImm 1, .IntImm 5], .FloatT 32⟩ (.FloatT 32) =
      .ok (⟨[.IntImm 8, .IntImm 7, .IntImm 6, .IntImm 5], .FloatT 32⟩, 0) ∧
    ConcreteBroadcast ⟨[.IntImm 5, .IntImm 4], .FloatT 32⟩
        ⟨[.IntImm 4], .FloatT 32⟩ (.FloatT 32) =
      .ok (⟨[.IntImm 5, .IntImm 4], .FloatT 32⟩, 0) ∧
    ConcreteBroadcast ⟨[.IntImm 3], .FloatT 32⟩ ⟨[], .FloatT 32⟩ (.FloatT 32) =
      .ok (⟨[.IntImm 3], .FloatT 32⟩, 0) := by
  refine ⟨fun s1 s2 o d1 d2 od h => ?_, by decide, by decide, by decide⟩
  rw [concreteBroadcast_np, h]

/-- Witness for C1 at the concrete input `(5, 4)` and `(4,)`. -/
theorem concreteBroadcast_concrete_shapes_witness :
    ConcreteBroadcast ⟨([5, 4] : List Int).map .IntImm, .IntT 8⟩
        ⟨([4] : List Int).map .IntImm, .IntT 8⟩ (.IntT 8) =
      .ok (⟨([5, 4] : List Int).map .IntImm, .IntT 8⟩, 0) :=
  concreteBroadcast_concrete_shapes.1 [5, 4] [4] [5, 4] _ _ _ (by decide)

/-- C2: at an aligned pair that is not provably equal and where neither side
is the literal one, an `Any` wildcard side resolves the output dimension to
the other side, with only the non-fatal warning recorded and no error
raised; lifted to `ConcreteBroadcast` on the rank-one shapes the result is
produced with exactly one warning. -/
theorem broadcast_any_wildcard :
    ∀ (s : IndexExpr) (d1 d2 od : DataType),
      EqualCheck .Any s = false →
      EqualConstInt s 1 = false →
      broadcastDim .Any s = .okWarn s ∧
      broadcastDim s .Any = .okWarn s ∧
      ConcreteBroadcast ⟨[.Any], d1⟩ ⟨[s], d2⟩ od = .ok (⟨[s], od⟩, 1) ∧
      ConcreteBroadcast ⟨[s], d1⟩ ⟨[.Any], d2⟩ od = .ok (⟨[s], od⟩, 1) := by
  intro s d1 d2 od hne h1
  have hsA : s ≠ .Any := by
    intro hs
    rw [hs, equalCheck_self] at hne
    exact absurd hne (by decide)
  have hne2 : EqualCheck s .Any = false := by rw [equalCheck_comm]; exact hne
  have hd1 : broadcastDim .Any s = .okWarn s := by
    unfold broadcastDim
    rw [hne, h1]
    simp [EqualConstInt, as_const_int]
  have hd2 : broadcastDim s .Any = .okWarn s := by
    unfold broadcastDim
    rw [hne2, h1]
    simp [EqualConstInt, as_const_int, hsA]
  refine ⟨hd1, hd2, ?_, ?_⟩ <;>
    · unfold ConcreteBroadcast
      simp [bcastDims, hd1, hd2]

/-- Witness for C2 at the concrete dimension 7. -/
theorem broadcast_any_wildcard_witness :
    broadcastDim .Any (.IntImm 7) = .okWarn (.IntImm 7) ∧
    ConcreteBroadcast ⟨[.Any], .IntT 8⟩ ⟨[.IntImm 7], .IntT 8⟩ (.IntT 8) =
      .ok (⟨[.IntImm 7], .IntT 8⟩, 1) := by
  have h := broadcast_any_wildcard (.IntImm 7) (.IntT 8) (.IntT 8) (.IntT 8)
    (by decide) (by decide)
  exact ⟨h.1, h.2.2.1⟩

/-- C3: `OpStrategy.AddImplement` is find-or-create on the current
condition: two calls under one condition leave one specialization holding
both implementations in order, calls under two distinct conditions create
two specializations, and any call sequence starting from a fresh strategy
keeps the specialization conditions pairwise distinct. -/
theorem opStrategy_addImplement_findOrCreate :
    ∀ (c c2 : SpecializedCondition) (fc1 fs1 : Nat) (pl1 : Int)
      (fc2 fs2 : Nat) (pl2 : Int)
      (calls : List (SpecializedCondition × Nat × Nat × Int)),
      c ≠ c2 →
      (((OpStrategy.mk []).AddImplement c fc1 fs1 pl1).AddImplement c fc2 fs2
            pl2).specializations =
          [⟨c, [⟨fc1, fs1, pl1⟩, ⟨fc2, fs2, pl2⟩]⟩] ∧
      (((OpStrategy.mk []).AddImplement c fc1 fs1 pl1).AddImplement c2 fc2 fs2
            pl2).specializations =
          [⟨c, [⟨fc1, fs1, pl1⟩]⟩, ⟨c2, [⟨fc2, fs2, pl2⟩]⟩] ∧
      ((applyAddImplements ⟨[]⟩ calls).specializations.map
          OpSpecialization.condition).Nodup := by
  intro c c2 fc1 fs1 pl1 fc2 fs2 pl2 calls hne
  refine ⟨?_, ?_, applyAddImplements_conditions_nodup calls ⟨[]⟩ (by simp)⟩
  · simp [OpStrategy.AddImplement, addToFirstMatch, OpSpecialization.AddImplement]
  · simp [OpStrategy.AddImplement, addToFirstMatch, OpSpecialization.AddImplement,
      hne, Ne.symm hne]

/-- Witness for C3 at conditions 0 and 1. -/
theorem opStrategy_addImplement_findOrCreate_witness :
    (((OpStrategy.mk []).AddImplement 0 1 2 3).AddImplement 0 4 5
          6).specializations =
        [⟨0, [⟨1, 2, 3⟩, ⟨4, 5, 6⟩]⟩] ∧
    (((OpStrategy.mk []).AddImplement 0 1 2 3).AddImplement 1 4 5
          6).specializations =
        [⟨0, [⟨1, 2, 3⟩]⟩, ⟨1, [⟨4, 5, 6⟩]⟩] := by
  have h := opStrategy_addImplement_findOrCreate 0 1 1 2 3 4 5 6 [] (by decide)
  exact ⟨h.1, h.2.1⟩

/-- C4: a 3-type invocation of `BroadcastRel` or `BroadcastCompRel` in which
either of the first two types is not a tensor type returns `false`, raises
nothing, and records no assignment. -/
theorem broadcastRel_nonTensor_deferred :
    ∀ (ty0 ty1 ty2 : RType) (n : Int) (a : Attrs),
      ToTensorType ty0 = none ∨ ToTensorType ty1 = none →
      BroadcastRel [ty0, ty1, ty2] n a = .ok (false, []) ∧
      BroadcastCompRel [ty0, ty1, ty2] n a = .ok (false, []) := by
  intro ty0 ty1 ty2 n a h
  unfold BroadcastRel BroadcastCompRel
  rcases h with h | h <;>
    cases h0 : ToTensorType ty0 <;> cases h1 : ToTensorType ty1 <;>
      simp_all [List.getD]

/-- Witness for C4 with an incomplete first input. -/
theorem broadcastRel_nonTensor_deferred_witness :
    BroadcastRel [.IncompleteTy 0, .TensorTy ⟨[], .IntT 8⟩, .IncompleteTy 1]
        2 () = .ok (false, []) ∧
    BroadcastCompRel [.IncompleteTy 0, .TensorTy ⟨[], .IntT 8⟩, .IncompleteTy 1]
        2 () = .ok (false, []) :=
  broadcastRel_nonTensor_deferred (.IncompleteTy 0) (.TensorTy ⟨[], .IntT 8⟩)
    (.IncompleteTy 1) 2 () (Or.inl rfl)

/-- C5: on concrete shapes with an aligned pair that is neither provably
equal nor bridged by a literal one (nor `Any`, impossible for literals),
`ConcreteBroadcast` raises the fatal incompatibility error carrying both
offending tensor types, and produces no output. -/
theorem concreteBroadcast_incompatible :
    ∀ (s1 s2 : List Int) (d1 d2 od : DataType),
      npBroadcast s1 s2 = none →
      ConcreteBroadcast ⟨s1.map .IntImm, d1⟩ ⟨s2.map .IntImm, d2⟩ od =
        .error (.incompatibleBroadcast ⟨s1.map .IntImm, d1⟩
          ⟨s2.map .IntImm, d2⟩) := by
  intro s1 s2 d1 d2 od h
  rw [concreteBroadcast_np, h]

/-- Witness for C5 at the spec's example shapes `(3, 4)` and `(5, 4)`. -/
theorem concreteBroadcast_incompatible_witness :
    ConcreteBroadcast ⟨([3, 4] : List Int).map .IntImm, .FloatT 32⟩
        ⟨([5, 4] : List Int).map .IntImm, .FloatT 32⟩ (.FloatT 32) =
      .error (.incompatibleBroadcast
        ⟨([3, 4] : List Int).map .IntImm, .FloatT 32⟩
        ⟨([5, 4] : List Int).map .IntImm, .FloatT 32⟩) :=
  concreteBroadcast_incompatible [3, 4] [5, 4] _ _ _ (by decide)

/-- C6: when both of the first two types are tensor types with unequal
dtypes, `BroadcastRel` and `BroadcastCompRel` fail the dtype `CHECK`
fatally — not a `false` return — and assign nothing to the output slot. -/
theorem broadcastRel_dtype_mismatch_fatal :
    ∀ (t0 t1 : TensorType) (ty2 : RType) (n : Int) (a : Attrs),
      t0.dtype ≠ t1.dtype →
      BroadcastRel [.TensorTy t0, .TensorTy t1, ty2] n a =
        .error (.checkDtype t0.dtype t1.dtype) ∧
      BroadcastCompRel [.TensorTy t0, .TensorTy t1, ty2] n a =
        .error (.checkDtype t0.dtype t1.dtype) := by
  intro t0 t1 ty2 n a h
  unfold BroadcastRel BroadcastCompRel
  simp [List.getD, ToTensorType, h]

/-- Witness for C6 with int8 against float32 scalars. -/
theorem broadcastRel_dtype_mismatch_fatal_witness :
    BroadcastRel [.TensorTy ⟨[], .IntT 8⟩, .TensorTy ⟨[], .FloatT 32⟩,
        .IncompleteTy 0] 2 () =
      .error (.checkDtype (.IntT 8) (.FloatT 32)) ∧
    BroadcastCompRel [.TensorTy ⟨[], .IntT 8⟩, .TensorTy ⟨[], .FloatT 32⟩,
        .IncompleteTy 0] 2 () =
      .error (.checkDtype (.IntT 8) (.FloatT 32)) :=
  broadcastRel_dtype_mismatch_fatal ⟨[], .IntT 8⟩ ⟨[], .FloatT 32⟩
    (.IncompleteTy 0) 2 () (by decide)

/-- C7: on a successful run over matching input dtypes, `BroadcastRel`
assigns the output slot a tensor type at the inputs' dtype while
`BroadcastCompRel` assigns the same shape at the boolean dtype. -/
theorem broadcastRel_output_dtypes :
    ∀ (t0 t1 : TensorType) (ty2 : RType) (n : Int) (a : Attrs)
      (sh : List IndexExpr) (e : DataType) (w : Nat),
      t0.dtype = t1.dtype →
      ConcreteBroadcast t0 t1 t0.dtype = .ok (⟨sh, e⟩, w) →
      BroadcastRel [.TensorTy t0, .TensorTy t1, ty2] n a =
        .ok (true, [(ty2, .TensorTy ⟨sh, t0.dtype⟩)]) ∧
      BroadcastCompRel [.TensorTy t0, .TensorTy t1, ty2] n a =
        .ok (true, [(ty2, .TensorTy ⟨sh, BoolType⟩)]) := by
  intro t0 t1 ty2 n a sh e w hdt h
  obtain ⟨he, hsame⟩ := concreteBroadcast_ok_shape t0 t1 t0.dtype t0.dtype
    sh e w h
  obtain ⟨-, hbool⟩ := concreteBroadcast_ok_shape t0 t1 t0.dtype BoolType
    sh e w h
  unfold BroadcastRel BroadcastCompRel
  simp [List.getD, ToTensorType, if_pos hdt, hsame, hbool]

/-- Witness for C7 broadcasting int8 shapes `(2, 1)` and `(3,)`. -/
theorem broadcastRel_output_dtypes_witness :
    ConcreteBroadcast ⟨[.IntImm 2, .IntImm 1], .IntT 8⟩
        ⟨[.IntImm 3], .IntT 8⟩ (.IntT 8) =
      .ok (⟨[.IntImm 2, .IntImm 3], .IntT 8⟩, 0) ∧
    BroadcastRel [.TensorTy ⟨[.IntImm 2, .IntImm 1], .IntT 8⟩,
        .TensorTy ⟨[.IntImm 3], .IntT 8⟩, .IncompleteTy 0] 2 () =
      .ok (true, [(.IncompleteTy 0,
        .TensorTy ⟨[.IntImm 2, .IntImm 3], .IntT 8⟩)]) ∧
    BroadcastCompRel [.TensorTy ⟨[.IntImm 2, .IntImm 1], .IntT 8⟩,
        .TensorTy ⟨[.IntImm 3], .IntT 8⟩, .IncompleteTy 0] 2 () =
      .ok (true, [(.IncompleteTy 0,
        .TensorTy ⟨[.IntImm 2, .IntImm 3], BoolType⟩)]) := by
  have h := broadcastRel_output_dtypes ⟨[.IntImm 2, .IntImm 1], .IntT 8⟩
    ⟨[.IntImm 3], .IntT 8⟩ (.IncompleteTy 0) 2 ()
    [.IntImm 2, .IntImm 3] (.IntT 8) 0 rfl (by decide)
  exact ⟨by decide, h.1, h.2⟩

/-- C8: `IdentityRel` returns `true` unconditionally and records the
assignment `types[i] := types[0]` for every `i` in `[1, len(types))`, and
nothing else. -/
theorem identityRel_assigns_first :
    ∀ (types : List RType) (n : Int) (a : Attrs),
      (IdentityRel types n a).1 = true ∧
      (IdentityRel types n a).2.length = types.length - 1 ∧
      ∀ i, 1 ≤ i → i < types.length →
        (IdentityRel types n a).2[i - 1]? =
          some (types.getD i default, types.getD 0 default) := by
  intro types n a
  refine ⟨rfl, by simp [IdentityRel], fun i h1 hlen => ?_⟩
  have hidx : (1 : Nat) + (i - 1) = i := by omega
  have hlt : i - 1 < types.length - 1 := by omega
  simp only [IdentityRel, List.getElem?_map, List.getElem?_drop, hidx,
    List.getElem?_range hlen]
  rfl

/-- Witness for C8 on a two-type sequence. -/
theorem identityRel_assigns_first_witness :
    (IdentityRel [.IncompleteTy 5, .IncompleteTy 6] 1 ()).2[0]? =
      some (.IncompleteTy 6, .IncompleteTy 5) :=
  (identityRel_assigns_first [.IncompleteTy 5, .IncompleteTy 6] 1 ()).2.2 1
    (by decide) (by decide)

/-- C9: `EqualCheck` is reflexive and symmetric over all index
expressions. -/
theorem equalCheck_refl_and_symm :
    (∀ x : IndexExpr, EqualCheck x x = true) ∧
    (∀ a b : IndexExpr, EqualCheck a b = EqualCheck b a) :=
  ⟨equalCheck_self, equalCheck_comm⟩

/-- C10: invoking `BroadcastRel` or `BroadcastCompRel` with a types
sequence of length other than 3 fails the arity `CHECK` fatally; it never
takes the deferred `false` return. -/
theorem broadcastRel_arity_fatal :
    ∀ (types : List RType) (n : Int) (a : Attrs),
      types.length ≠ 3 →
      BroadcastRel types n a = .error (.checkArity types.length) ∧
      BroadcastCompRel types n a = .error (.checkArity types.length) := by
  intro types n a h
  unfold BroadcastRel BroadcastCompRel
  rw [if_neg h, if_neg h]
  exact ⟨rfl, rfl⟩

/-- Witness for C10 on a two-type sequence. -/
theorem broadcastRel_arity_fatal_witness :
    BroadcastRel [.IncompleteTy 0, .IncompleteTy 1] 2 () =
      .error (.checkArity 2) ∧
    BroadcastCompRel [.IncompleteTy 0, .IncompleteTy 1] 2 () =
      .error (.checkArity 2) :=
  broadcastRel_arity_fatal [.IncompleteTy 0, .IncompleteTy 1] 2 ()
    (by decide)

end Relay

